import Mathlib

/-!
# Verification of the TekHSI synchronized acquisition coordinator

Shallow embedding of the core of `tekhsi/tek_hsi_connect.py` (class
`TekHSIConnect`): the data model (waveform headers, header maps, the
per-source waveform cache), the header validity check, the prebuilt
acceptance filters, the chunk decoder of `_read_waveform`, the sequential
payload reader `_read_waveforms_sequential`, one iteration of the
acquisition loop `_run_inner`, and the foreground operations `get_data`,
`set_acq_filter` and the wait-discipline readiness predicates.

Modelling conventions:
* Python floats (spacings, offsets, IQ metadata) are modelled as `Rat`;
  the decimal constants of the IQ rate table become exact rationals.
* Python dicts are association lists that preserve insertion order;
  `ainsert` replaces the value of an existing key in place, mirroring
  dict assignment.
* `str.lower()` is modelled by `lowerStr` (ASCII case mapping; source
  names are ASCII channel names).
* A gRPC chunk is its raw byte list; `np.frombuffer` groups it into
  samples of `sourcewidth` bytes and fails when the length is not a
  multiple of the width.  Sample buffers preallocated by `np.empty` are
  lists of `Option` cells, `none` marking a cell that was never written.
* Exceptions (`AttributeError` in a filter, `ValueError` from numpy,
  `UnboundLocalError` for an unknown waveform type) are `Except.error`.
* Each model waveform carries a ghost field `src_dataid`: the data id of
  the header it was decoded from, used only to state provenance claims.
* One `_run_inner` iteration is a pure state transition; the background
  thread holds the publish lock across the whole iteration, which is
  what makes this atomic-step view of the loop faithful.  The trace of
  observable events (RPC calls, timestamp, callback, counter increment)
  is returned alongside the new state.
-/

/-- ASCII model of Python `str.lower` on one character. -/
def lowerChar (c : Char) : Char :=
  if 65 ≤ c.toNat ∧ c.toNat ≤ 90 then Char.ofNat (c.toNat + 32) else c

/-- ASCII model of Python `str.lower`. -/
def lowerStr (s : String) : String :=
  ⟨s.data.map lowerChar⟩

/-- Lookup in an insertion-ordered association list (Python dict read). -/
def alookup {α : Type} : List (String × α) → String → Option α
  | [], _ => none
  | (k, v) :: rest, key => if k = key then some v else alookup rest key

/-- Python dict assignment `d[key] = v`: replace in place if the key is
present, otherwise append at the end (dicts preserve insertion order). -/
def ainsert {α : Type} (m : List (String × α)) (key : String) (v : α) :
    List (String × α) :=
  if m.any (fun p => decide (p.1 = key)) then
    m.map (fun p => if p.1 = key then (key, v) else p)
  else m ++ [(key, v)]

/-- The fields of a `WaveformHeader` protobuf message consumed by the
client (`tek_hsi_connect.py`).  Numeric wire floats are `Rat`. -/
structure WaveformHeader where
  sourcename : String
  dataid : Int
  noofsamples : Nat
  sourcewidth : Nat
  wfmtype : Nat
  hasdata : Bool
  horizontalspacing : Rat
  horizontalzeroindex : Rat
  horizontalUnits : String
  verticalspacing : Rat
  verticaloffset : Rat
  verticalunits : String
  iq_centerFrequency : Rat
  iq_fftLength : Rat
  iq_rbw : Rat
  iq_span : Rat
  iq_windowType : String
  deriving Repr, DecidableEq

/-- A Python header dictionary: keys are source names, values may be
`None` (the filters guard against `None` entries explicitly). -/
abbrev HeaderMap := List (String × Option WaveformHeader)

/-- `TekHSIConnect._is_header_value` (tek_hsi_connect.py:719-734):
`header is not None and header.noofsamples > 0 and
header.sourcewidth in {1, 2, 4} and header.hasdata`. -/
def is_header_value : Option WaveformHeader → Bool
  | none => false
  | some header =>
    decide (header.noofsamples > 0) &&
      (header.sourcewidth == 1 || header.sourcewidth == 2 ||
        header.sourcewidth == 4) &&
      header.hasdata

/-- `TekHSIConnect._acq_id` (tek_hsi_connect.py:636-648): data id of the
first header in the list, `None` when the list is empty. -/
def acq_id : List WaveformHeader → Option Int
  | [] => none
  | header :: _ => some header.dataid

/-- The gRPC server as seen through the two RPCs the loop issues:
`GetHeader` (one optional header per source) and `GetWaveform`
(an ordered stream of raw byte chunks per source). -/
structure Server where
  getHeader : String → Option WaveformHeader
  getWaveform : String → List (List Nat)

/-- `TekHSIConnect._read_headers` (tek_hsi_connect.py:763-779), helper
recursion: reads one header per active symbol, keeping exactly those
that pass `_is_header_value`; kept headers are appended to the list and
stored in the dictionary under their own `sourcename`. -/
def read_headers_go (srv : Server) :
    List String → List WaveformHeader → HeaderMap →
      List WaveformHeader × HeaderMap
  | [], hs, hd => (hs, hd)
  | symbol :: rest, hs, hd =>
    let header := srv.getHeader symbol
    if is_header_value header then
      match header with
      | some h => read_headers_go srv rest (hs ++ [h]) (ainsert hd h.sourcename (some h))
      | none => read_headers_go srv rest hs hd
    else read_headers_go srv rest hs hd

/-- `TekHSIConnect._read_headers`: entry point with empty accumulators
(the Python caller passes fresh empty `headers` / `header_dict`). -/
def read_headers (srv : Server) (symbols : List String) :
    List WaveformHeader × HeaderMap :=
  read_headers_go srv symbols [] []

/-- `TekHSIConnect.any_horizontal_change` (tek_hsi_connect.py:393-420),
recursion over the iteration order of `current_header.items()`.  The
third Python test `prev is not None and (prev.noofsamples !=
cur.noofsamples or ...)` dereferences `cur`; when `cur` is `None` that
raises `AttributeError`, modelled as `Except.error`. -/
def any_horizontal_change_go (previous : HeaderMap) :
    HeaderMap → Except String Bool
  | [] => Except.ok false
  | (key, cur) :: rest =>
    match alookup previous key with
    | none => Except.ok true
    | some prev =>
      match prev, cur with
      | none, some _ => Except.ok true
      | none, none => any_horizontal_change_go previous rest
      | some p, some c =>
        if p.noofsamples ≠ c.noofsamples ∨
            p.horizontalspacing ≠ c.horizontalspacing ∨
            p.horizontalzeroindex ≠ c.horizontalzeroindex then
          Except.ok true
        else any_horizontal_change_go previous rest
      | some _, none =>
        Except.error "AttributeError: NoneType object has no attribute noofsamples"

/-- `TekHSIConnect.any_horizontal_change`: the prebuilt horizontal-change
acceptance filter. -/
def any_horizontal_change (previous current : HeaderMap) : Except String Bool :=
  any_horizontal_change_go previous current

/-- The acceptance condition of claim C7, written from the spec's words
(not from the source): accept iff some key of `cur` is absent from
`prev`, or maps to `None` in `prev` while its `cur` header is non-None,
or has `prev` and `cur` headers differing in sample count, horizontal
spacing, or horizontal zero index. -/
def horizontal_change_spec (previous current : HeaderMap) : Bool :=
  current.any fun kv =>
    match alookup previous kv.1 with
    | none => true
    | some none => kv.2.isSome
    | some (some p) =>
      match kv.2 with
      | some c =>
        decide (p.noofsamples ≠ c.noofsamples) ||
          decide (p.horizontalspacing ≠ c.horizontalspacing) ||
          decide (p.horizontalzeroindex ≠ c.horizontalzeroindex)
      | none => false

/-- The IQ sample-rate derivation inlined in `_read_waveform`
(tek_hsi_connect.py:833-846); the Python float constants 1.9, 3.77,
1.44, 1.3, 0.89, 2.23 are the exact rationals below. -/
def iq_sample_rate_of (header : WaveformHeader) : Rat :=
  if header.iq_windowType == "Blackharris" then
    header.iq_fftLength * header.iq_rbw / ((19 : Rat) / 10)
  else if header.iq_windowType == "Flattop2" then
    header.iq_fftLength * header.iq_rbw / ((377 : Rat) / 100)
  else if header.iq_windowType == "Hanning" then
    header.iq_fftLength * header.iq_rbw / ((144 : Rat) / 100)
  else if header.iq_windowType == "Hamming" then
    header.iq_fftLength * header.iq_rbw / ((13 : Rat) / 10)
  else if header.iq_windowType == "Rectangle" then
    header.iq_fftLength * header.iq_rbw / ((89 : Rat) / 100)
  else if header.iq_windowType == "Kaiserbessel" then
    header.iq_fftLength * header.iq_rbw / ((223 : Rat) / 100)
  else header.iq_span

/-- `IQWaveformMetaInfo` as populated by `_read_waveform`
(tek_hsi_connect.py:848-855). -/
structure IQMetaInfo where
  iq_center_frequency : Rat
  iq_fft_length : Rat
  iq_resolution_bandwidth : Rat
  iq_span : Rat
  iq_window_type : String
  iq_sample_rate : Rat
  deriving Repr, DecidableEq

/-- Model of the typed waveform objects produced by `_read_waveform`.
`y_buffer` is the preallocated sample buffer: one cell per sample,
`none` for a cell `np.empty` left unwritten, otherwise the bytes of the
sample.  `meta_info` is populated for IQ waveforms only.  `src_dataid`
is a ghost field: the data id of the header the waveform was decoded
from (used to state provenance claims). -/
structure ModelWaveform where
  source_name : String
  wfmtype : Nat
  y_buffer : List (Option (List Nat))
  meta_info : Option IQMetaInfo
  src_dataid : Int
  deriving Repr, DecidableEq

/-- Modelled from the spec: `record_length` of a waveform from the
external `tm_data_types` library (outside src/) is the length of its
decoded raw sample array (spec section 3 and scenario S1). -/
def ModelWaveform.record_length (w : ModelWaveform) : Nat :=
  w.y_buffer.length

/-- Helper for `groupBytes`: structural recursion on a fuel bound
(`fuel ≥ bytes.length` at every call, so the fuel never runs out while
bytes remain). -/
def groupBytesGo (width : Nat) : Nat → List Nat → List (List Nat)
  | _, [] => []
  | 0, _ => []
  | fuel + 1, bytes => bytes.take width :: groupBytesGo width fuel (bytes.drop width)

/-- Group a byte list into samples of `width` bytes each (the view
`np.frombuffer` takes of a chunk whose length is a width multiple). -/
def groupBytes (width : Nat) (bytes : List Nat) : List (List Nat) :=
  if width = 0 then [] else groupBytesGo width bytes.length bytes

/-- `np.frombuffer(chunk, dtype)`: fails (ValueError) when the chunk
length is not a multiple of the element width, else yields the samples. -/
def frombuffer (width : Nat) (bytes : List Nat) : Option (List (List Nat)) :=
  if width ≠ 0 ∧ bytes.length % width = 0 then some (groupBytes width bytes)
  else none

/-- Overwrite `buffer[start : start + vals.length]` with written cells
(used when the numpy slice assignment is exact). -/
def writeAt (buffer : List (Option (List Nat))) (start : Nat)
    (vals : List (List Nat)) : List (Option (List Nat)) :=
  buffer.take start ++ vals.map some ++ buffer.drop (start + vals.length)

/-- numpy slice assignment `buffer[s : s + k] = dt` with `k = dt.length`:
python slices clamp to the buffer length, and numpy then broadcasts.
Exact-length assignment writes elementwise; a length-1 `dt` broadcasts
into the (possibly shorter or empty) slice; any other length mismatch
raises ValueError (`none`). -/
def writeSlice (buffer : List (Option (List Nat))) (s : Nat)
    (dt : List (List Nat)) : Option (List (Option (List Nat))) :=
  let n := buffer.length
  let start := min s n
  let stop := min (s + dt.length) n
  if dt.length = stop - start then some (writeAt buffer start dt)
  else if dt.length = 1 then
    some (buffer.take start ++ List.replicate (stop - start) (some dt.headI) ++
      buffer.drop stop)
  else none

/-- The chunk loop shared by the three decode branches of
`_read_waveform` (tek_hsi_connect.py:811-821, 865-877, 895-905): view
each chunk as samples, assign into the next slice, advance by the
number of samples.  The `Bool` is `false` when an exception fired, in
which case the partially filled buffer as of that point is returned
(the Python handler catches the exception outside the loop). -/
def decodeLoop (width : Nat) :
    List (List Nat) → List (Option (List Nat)) → Nat →
      List (Option (List Nat)) × Bool
  | [], buffer, _ => (buffer, true)
  | chunk :: rest, buffer, s =>
    match frombuffer width chunk with
    | none => (buffer, false)
    | some dt =>
      match writeSlice buffer s dt with
      | none => (buffer, false)
      | some buffer' => decodeLoop width rest buffer' (s + dt.length)

/-- Key sets of the dtype dictionaries `v_datatypes` ({1, 2, 4, 8}),
`iq_datatypes` ({1, 2, 4}) and `d_datatypes` ({1}); a width outside the
set is a KeyError (tek_hsi_connect.py:138-140). -/
def v_width_ok (w : Nat) : Bool := w == 1 || w == 2 || w == 4 || w == 8

/-- Key set of `iq_datatypes`. -/
def iq_width_ok (w : Nat) : Bool := w == 1 || w == 2 || w == 4

/-- Key set of `d_datatypes`. -/
def d_width_ok (w : Nat) : Bool := w == 1

/-- `TekHSIConnect._read_waveform` (tek_hsi_connect.py:782-910).
Dispatch on `wfmtype`: `0 < t ≤ 3` analog, `t ∈ {7, 6}` IQ,
`t ∈ {4, 5}` digital.  Any exception inside a branch (dtype KeyError
before the buffer is allocated, frombuffer or slice ValueError inside
the loop) is caught by the enclosing handler and the function still
returns the waveform built so far; an unmatched `wfmtype` leaves the
local `waveform` unbound, so the final `return waveform` raises
(`Except.error`). -/
def read_waveform (getWfm : String → List (List Nat))
    (header : WaveformHeader) : Except String ModelWaveform :=
  if 0 < header.wfmtype ∧ header.wfmtype ≤ 3 then
    if v_width_ok header.sourcewidth then
      let buf0 : List (Option (List Nat)) := List.replicate header.noofsamples none
      let res := decodeLoop header.sourcewidth (getWfm header.sourcename) buf0 0
      Except.ok ⟨header.sourcename, header.wfmtype, res.1, none, header.dataid⟩
    else
      Except.ok ⟨header.sourcename, header.wfmtype, [], none, header.dataid⟩
  else if header.wfmtype = 7 ∨ header.wfmtype = 6 then
    let meta : IQMetaInfo :=
      ⟨header.iq_centerFrequency, header.iq_fftLength, header.iq_rbw,
        header.iq_span, header.iq_windowType, iq_sample_rate_of header⟩
    if iq_width_ok header.sourcewidth then
      let buf0 : List (Option (List Nat)) := List.replicate header.noofsamples none
      let res := decodeLoop header.sourcewidth (getWfm header.sourcename) buf0 0
      Except.ok ⟨header.sourcename, header.wfmtype, res.1, some meta, header.dataid⟩
    else
      Except.ok ⟨header.sourcename, header.wfmtype, [], some meta, header.dataid⟩
  else if header.wfmtype = 4 ∨ header.wfmtype = 5 then
    if d_width_ok header.sourcewidth then
      let buf0 : List (Option (List Nat)) := List.replicate header.noofsamples none
      let res := decodeLoop header.sourcewidth (getWfm header.sourcename) buf0 0
      Except.ok ⟨header.sourcename, header.wfmtype, res.1, none, header.dataid⟩
    else
      Except.ok ⟨header.sourcename, header.wfmtype, [], none, header.dataid⟩
  else Except.error "UnboundLocalError: local variable waveform referenced before assignment"

/-- Observable events of one acquisition-loop iteration, in program
order: RPCs issued, the snapshot timestamp, the `data_arrival` hook,
the user callback, and the acquisition-counter increment. -/
inductive Event where
  | getHeaderE (name : String)
  | getWaveformE (name : String)
  | timestampE
  | dataArrivalE
  | callbackE
  | incrCounterE
  deriving Repr, DecidableEq

/-- The fields of `TekHSIConnect` the claims are about (gRPC plumbing,
logging and performance counters omitted).  `dataFilter` is
`self._filter`; `has_callback` records whether `self._callback` is not
`None`. -/
structure ConnState where
  datacache : List (String × ModelWaveform)
  headers : HeaderMap
  acqcount : Nat
  prev_data_id : Int
  lastacqseen : Nat
  acqtime : Rat
  recordlength : Nat
  dataFilter : Option (HeaderMap → HeaderMap → Bool)
  cachedataenabled : Bool
  activesymbols : List String
  connected : Bool
  is_exiting : Bool
  has_callback : Bool

/-- `TekHSIConnect.get_data` (tek_hsi_connect.py:570-594): `None` when
caching is off, else the cache entry under the lowercased name. -/
def get_data (st : ConnState) (name : String) : Option ModelWaveform :=
  if st.cachedataenabled then alookup st.datacache (lowerStr name) else none

/-- `TekHSIConnect.set_acq_filter` (tek_hsi_connect.py:596-612): a
`None` filter raises ValueError; otherwise the filter is swapped in and
`_lastacqseen` is set to the current `_acqcount`. -/
def set_acq_filter (st : ConnState)
    (acq_filter : Option (HeaderMap → HeaderMap → Bool)) :
    Except String ConnState :=
  match acq_filter with
  | none => Except.error "Filter cannot be None"
  | some f =>
    Except.ok { st with dataFilter := some f, lastacqseen := st.acqcount }

/-- The readiness condition of `_wait_for_new_data` /
`_wait_for_next_acq` (tek_hsi_connect.py:1399-1419): the negation of
the spin condition `len(self._datacache) <= 0 or self._lastacqseen >=
self._acqcount`. -/
def next_acq_ready (st : ConnState) : Bool :=
  decide (st.datacache.length > 0) && decide (st.lastacqseen < st.acqcount)

/-- The readiness condition of `_wait_for_any_acq`
(tek_hsi_connect.py:1378-1388): negation of
`self._acqcount <= 0 or len(self._datacache) <= 0`. -/
def any_acq_ready (st : ConnState) : Bool :=
  decide (st.acqcount > 0) && decide (st.datacache.length > 0)

/-- The filter step of `_run_inner` (tek_hsi_connect.py:1324):
`self._filter is not None and not self._filter(...)` is the reject
branch, so acceptance is `filter is None or filter(...)`. -/
def filter_accepts (filt : Option (HeaderMap → HeaderMap → Bool))
    (previous current : HeaderMap) : Bool :=
  match filt with
  | none => true
  | some f => f previous current

/-- `TekHSIConnect._read_waveforms_sequential`
(tek_hsi_connect.py:965-1011) on the state fields it mutates: for each
header read the waveform (one `GetWaveform` stream per header), set
`_recordlength`, unconditionally store the waveform in `_datacache`
under the lowercased source name when caching is enabled, and append it
to the output list when `_recordlength > 0`.  An exception from
`_read_waveform` (unknown wfmtype) propagates after the earlier
headers' cache writes have been committed; the `Bool` is `false` in
that case. -/
def read_waveforms_sequential (srv : Server) :
    List WaveformHeader → ConnState → List ModelWaveform →
      ConnState × List ModelWaveform × List Event × Bool
  | [], st, wfs => (st, wfs, [], true)
  | header :: rest, st, wfs =>
    match read_waveform srv.getWaveform header with
    | Except.error _ => (st, wfs, [], false)
    | Except.ok w =>
      let st1 := { st with recordlength := w.record_length }
      let st2 :=
        if st1.cachedataenabled then
          { st1 with
            datacache := ainsert st1.datacache (lowerStr header.sourcename) w }
        else st1
      let wfs2 := if st2.recordlength > 0 then wfs ++ [w] else wfs
      let res := read_waveforms_sequential srv rest st2 wfs2
      (res.1, res.2.1, Event.getWaveformE header.sourcename :: res.2.2.1, res.2.2.2)

/-- The `finally` clause of `_run_inner` (tek_hsi_connect.py:1345-1348):
when caching is enabled, stamp `_acqtime` with the current time (the
publish-lock release itself is implicit in the atomic-step model). -/
def stamp_time (st : ConnState) (now : Rat) : ConnState × List Event :=
  if st.cachedataenabled then
    ({ st with acqtime := now }, [Event.timestampE])
  else (st, [])

/-- One iteration of the acquisition loop,
`TekHSIConnect._run_inner` (tek_hsi_connect.py:1293-1363), as an atomic
state transition (the worker holds the publish lock for the whole
protected section).  Returns the new state, the waveform list passed to
the callback, and the event trace.  Early returns still run the
`finally` timestamp; the notify phase (data_arrival, callback, counter
increment) runs only when the protected section completed without
exception. -/
def run_inner (srv : Server) (now : Rat) (st : ConnState) :
    ConnState × List ModelWaveform × List Event :=
  if st.is_exiting then
    let fin := stamp_time st now
    (fin.1, [], fin.2)
  else
    let rh := read_headers srv st.activesymbols
    let ev0 := st.activesymbols.map Event.getHeaderE
    match acq_id rh.1 with
    | none =>
      let fin := stamp_time st now
      (fin.1, [], ev0 ++ fin.2)
    | some cur =>
      if st.prev_data_id = cur then
        let fin := stamp_time st now
        (fin.1, [], ev0 ++ fin.2)
      else
        let st1 := { st with prev_data_id := cur }
        if filter_accepts st1.dataFilter st1.headers rh.2 then
          if st1.is_exiting then
            let fin := stamp_time st1 now
            (fin.1, [], ev0 ++ fin.2)
          else
            let st2 := { st1 with headers := rh.2 }
            let rw := read_waveforms_sequential srv rh.1 st2 []
            let fin := stamp_time rw.1 now
            if rw.2.2.2 then
              let st4 := fin.1
              let notifyEv :=
                if rw.2.1 ≠ [] ∧ st4.connected ∧ ¬st4.is_exiting then
                  Event.dataArrivalE ::
                    (if st4.has_callback then [Event.callbackE] else [])
                else []
              if st4.connected ∧ ¬st4.is_exiting then
                ({ st4 with acqcount := st4.acqcount + 1 }, rw.2.1,
                  ev0 ++ rw.2.2.1 ++ fin.2 ++ notifyEv ++ [Event.incrCounterE])
              else (st4, rw.2.1, ev0 ++ rw.2.2.1 ++ fin.2 ++ notifyEv)
            else (fin.1, rw.2.1, ev0 ++ rw.2.2.1 ++ fin.2)
        else
          let st2 := { st1 with headers := rh.2 }
          let fin := stamp_time st2 now
          (fin.1, [], ev0 ++ fin.2)

/-- Iterated acquisition-loop steps: one `(server view, time)` pair per
access window, folded through `run_inner`. -/
def run_loop : List (Server × Rat) → ConnState → ConnState
  | [], st => st
  | (srv, now) :: rest, st => run_loop rest (run_inner srv now st).1

/-- The active-symbol computation of `TekHSIConnect.__init__`
(tek_hsi_connect.py:201-204): a falsy (`None`/empty) argument selects
the server-reported symbols, otherwise every supplied symbol is
lowercased. -/
def init_active_symbols (available : List String)
    (activesymbols : List String) : List String :=
  if activesymbols.isEmpty then available
  else activesymbols.map lowerStr

/-- The fields of `TekHSIConnect.__init__` the claims are about
(tek_hsi_connect.py:108-208). -/
def initial_state (available activesymbols : List String)
    (data_filter : Option (HeaderMap → HeaderMap → Bool))
    (has_callback : Bool) : ConnState :=
  { datacache := []
    headers := []
    acqcount := 0
    prev_data_id := -1
    lastacqseen := 0
    acqtime := -1
    recordlength := 0
    dataFilter := data_filter
    cachedataenabled := true
    activesymbols := init_active_symbols available activesymbols
    connected := true
    is_exiting := false
    has_callback := has_callback }

/-- A concrete header used by counterexamples and witnesses. -/
def hdrSample : WaveformHeader :=
  { sourcename := "ch1"
    dataid := 1
    noofsamples := 1000
    sourcewidth := 1
    wfmtype := 1
    hasdata := true
    horizontalspacing := 1
    horizontalzeroindex := 0
    horizontalUnits := "s"
    verticalspacing := 1
    verticaloffset := 0
    verticalunits := "V"
    iq_centerFrequency := 0
    iq_fftLength := 0
    iq_rbw := 0
    iq_span := 0
    iq_windowType := "" }

/-- A concrete IQ header: scenario S4 of the spec
(`wfmtype=6`, `Blackharris`, `L=1024`, `B=1e6`). -/
def hdrIQ : WaveformHeader :=
  { hdrSample with
    sourcename := "ch1_iq"
    wfmtype := 6
    sourcewidth := 2
    iq_centerFrequency := 1000000000
    iq_fftLength := 1024
    iq_rbw := 1000000
    iq_span := 2000000
    iq_windowType := "Blackharris" }

/-- `TekHSIConnect.any_acq` (tek_hsi_connect.py:376-390): the prebuilt
acceptance filter that accepts every new acquisition. -/
def any_acq (_previous_header _current_header : HeaderMap) : Bool :=
  true

/-- A state with one buffered, not-yet-seen acquisition. -/
def stBuffered : ConnState :=
  { initial_state [] ["ch1"] none false with
    datacache := [("ch1", ⟨"ch1", 1, [], none, 1⟩)], acqcount := 1 }

/-- A server that re-sends the already-processed acquisition:
`hdrSample` carries data id 1. -/
def srvDup : Server :=
  { getHeader := fun _ => some hdrSample, getWaveform := fun _ => [] }

/-- A state that has already processed data id 1. -/
def stBuffered1 : ConnState :=
  { initial_state [] ["ch1"] none false with
    datacache := [("ch1", ⟨"ch1", 1, [], none, 1⟩)]
    headers := [("ch1", some hdrSample)]
    acqcount := 1
    prev_data_id := 1 }

/-- A filter that rejects everything, used by witnesses. -/
def reject_all (_previous_header _current_header : HeaderMap) : Bool :=
  false

/-- A state like `stBuffered1` but with a reject-all filter installed
and data id 0 as the last processed one. -/
def stRejecting : ConnState :=
  { stBuffered1 with dataFilter := some reject_all, prev_data_id := 0 }

/-- Header for the decode-mismatch counterexample: 4 expected bytes
(4 samples of width 1), analog type. -/
def hdrShort : WaveformHeader :=
  { hdrSample with dataid := 5, noofsamples := 4 }

/-- Server delivering only 2 of the 4 expected bytes for `ch1`. -/
def srvShort : Server :=
  { getHeader := fun _ => some hdrShort, getWaveform := fun _ => [[7, 7]] }

/-- Tiny analog header (2 samples) for notify-order inputs. -/
def hdrTiny : WaveformHeader :=
  { hdrSample with noofsamples := 2 }

/-- Server offering `hdrTiny` and an empty chunk stream. -/
def srvNotify : Server :=
  { getHeader := fun _ => some hdrTiny, getWaveform := fun _ => [] }

/-- A fresh session state with a user callback installed. -/
def stCallback : ConnState :=
  initial_state [] ["ch1"] none true

/-- The waveform `srvNotify` decodes for `hdrTiny` (no chunks, so both
cells stay unwritten). -/
def wTiny : ModelWaveform :=
  ⟨"ch1", 1, [none, none], none, 1⟩

/-- The state after the payload-read phase of the `srvNotify`
acquisition on `stCallback`. -/
def stC3 : ConnState :=
  { stCallback with
    prev_data_id := 1
    headers := [("ch1", some hdrTiny)]
    recordlength := 2
    datacache := [("ch1", wTiny)] }

/-- All cached waveforms come from one acquisition: any two entries of
the per-source cache carry the same (ghost) data id. -/
def cache_uniform (st : ConnState) : Prop :=
  ∀ k1 k2 w1 w2, alookup st.datacache k1 = some w1 →
    alookup st.datacache k2 = some w2 → w1.src_dataid = w2.src_dataid

/-- Every cache key is the lowercased name of an active symbol. -/
def cache_keys_active (st : ConnState) : Prop :=
  ∀ k, (alookup st.datacache k).isSome = true →
    k ∈ st.activesymbols.map lowerStr

/-- A per-window server view that republishes every active symbol: each
symbol yields a valid header named after the symbol, carrying the
sweep's single data id and a decodable waveform type. -/
def good_sweep (srv : Server) (syms : List String) (d : Int) : Prop :=
  ∀ s ∈ syms, ∃ h, srv.getHeader s = some h ∧ h.sourcename = s ∧
    is_header_value (some h) = true ∧ h.dataid = d ∧
    0 < h.wfmtype ∧ h.wfmtype ≤ 7

/-- Sweep-1 headers: both channels publish data id 1. -/
def hCh1Acq1 : WaveformHeader :=
  { hdrSample with noofsamples := 2, dataid := 1 }

/-- Sweep-1 header for `ch2`. -/
def hCh2Acq1 : WaveformHeader :=
  { hdrSample with sourcename := "ch2", noofsamples := 2, dataid := 1 }

/-- Sweep-2 header for `ch1` (data id 2). -/
def hCh1Acq2 : WaveformHeader :=
  { hdrSample with noofsamples := 2, dataid := 2 }

/-- Sweep-2 header for `ch2`: no data this acquisition, so it is
filtered out as invalid. -/
def hCh2Acq2 : WaveformHeader :=
  { hdrSample with sourcename := "ch2", noofsamples := 2, dataid := 2, hasdata := false }

/-- The first access window: both sources valid with data id 1. -/
def srvSweep1 : Server :=
  { getHeader := fun s =>
      if s = "ch1" then some hCh1Acq1
      else if s = "ch2" then some hCh2Acq1 else none
    getWaveform := fun _ => [] }

/-- The second access window: only `ch1` valid, data id 2. -/
def srvSweep2 : Server :=
  { getHeader := fun s =>
      if s = "ch1" then some hCh1Acq2
      else if s = "ch2" then some hCh2Acq2 else none
    getWaveform := fun _ => [] }

/-- A fresh session on the two channels. -/
def stTwo : ConnState :=
  initial_state [] ["ch1", "ch2"] none false

theorem read_headers_go_fst (srv : Server) (syms : List String)
    (hs : List WaveformHeader) (hd : HeaderMap) :
    (read_headers_go srv syms hs hd).1 =
      hs ++ (syms.map srv.getHeader).filterMap
        (fun oh => if is_header_value oh then oh else none) := by
  induction syms generalizing hs hd with
  | nil => simp [read_headers_go]
  | cons s rest ih =>
    simp only [read_headers_go, List.map_cons, List.filterMap_cons]
    cases hsrv : srv.getHeader s with
    | none => simp [hsrv, is_header_value, ih]
    | some h =>
      by_cases hv : is_header_value (some h) = true
      · simp [hsrv, hv, ih]
      · simp [hsrv, hv, ih]

theorem mem_read_headers_valid (srv : Server) (syms : List String)
    (h : WaveformHeader) (hmem : h ∈ (read_headers srv syms).1) :
    is_header_value (some h) = true := by
  rw [read_headers, read_headers_go_fst] at hmem
  simp only [List.nil_append, List.mem_filterMap] at hmem
  obtain ⟨oh, _, hf⟩ := hmem
  by_cases hv : is_header_value oh = true
  · rw [if_pos hv] at hf
    subst hf
    exact hv
  · rw [if_neg hv] at hf
    cases hf

/-- **C3.** A header is judged valid by `_is_header_value` iff it is
non-None, has `noofsamples > 0`, `sourcewidth ∈ {1, 2, 4}` and the
`hasdata` flag set; and `_read_headers` keeps exactly the headers of
the active symbols satisfying this predicate, so every header it hands
on to filter evaluation or a payload read is valid. -/
theorem c3_header_validity (srv : Server) (syms : List String) :
    (∀ oh : Option WaveformHeader,
        is_header_value oh = true ↔
          ∃ h, oh = some h ∧ 0 < h.noofsamples ∧
            (h.sourcewidth = 1 ∨ h.sourcewidth = 2 ∨ h.sourcewidth = 4) ∧
            h.hasdata = true) ∧
      (read_headers srv syms).1 =
        (syms.map srv.getHeader).filterMap
          (fun oh => if is_header_value oh then oh else none) ∧
      (∀ h ∈ (read_headers srv syms).1, is_header_value (some h) = true) := by
  refine ⟨?_, ?_, mem_read_headers_valid srv syms⟩
  · intro oh
    cases oh with
    | none => simp [is_header_value]
    | some h =>
      simp only [is_header_value, Bool.and_eq_true, Bool.or_eq_true,
        decide_eq_true_eq, beq_iff_eq]
      constructor
      · rintro ⟨⟨hn, hw⟩, hd⟩
        exact ⟨h, rfl, hn, by tauto, hd⟩
      · rintro ⟨h', heq, hn, hw, hd⟩
        cases heq
        exact ⟨⟨hn, by tauto⟩, hd⟩
  · rw [read_headers, read_headers_go_fst]
    simp

/-- **C7, counterexample.**  The claim says `any_horizontal_change`
returns reject in every case other than the three accept conditions.
At `prev = {ch1: hdrSample}`, `cur = {ch1: None}` none of the accept
conditions holds, yet the filter raises an `AttributeError`
(dereferencing the `None` current header) instead of returning reject. -/
theorem c7_counterexample :
    horizontal_change_spec [("ch1", some hdrSample)] [("ch1", none)] = false ∧
      ∀ b : Bool,
        any_horizontal_change [("ch1", some hdrSample)] [("ch1", none)] ≠
          Except.ok b := by
  constructor
  · rfl
  · intro b hb
    simp [any_horizontal_change, any_horizontal_change_go, alookup] at hb

/-- **C7, amended.**  For every pair of header maps in which every
value of the current map is a non-None header, `any_horizontal_change`
returns accept exactly when some source key of the current map is
absent from the previous map, or maps to None there, or has previous
and current headers differing in sample count, horizontal spacing, or
horizontal zero index; in every other such case it returns reject.
(When the current map carries a None value against a non-None previous
header, the filter instead raises, per `c7_counterexample`.) -/
theorem c7_horizontal_filter (previous current : HeaderMap)
    (hcur : ∀ kv ∈ current, (kv.2 : Option WaveformHeader).isSome = true) :
    any_horizontal_change previous current =
      Except.ok (horizontal_change_spec previous current) := by
  rw [any_horizontal_change]
  induction current with
  | nil => rfl
  | cons kv rest ih =>
    obtain ⟨key, cur⟩ := kv
    have hhead : (cur : Option WaveformHeader).isSome = true :=
      hcur (key, cur) (List.mem_cons_self _ _)
    obtain ⟨c, rfl⟩ := Option.isSome_iff_exists.mp hhead
    have hrest : ∀ kv ∈ rest, (kv.2 : Option WaveformHeader).isSome = true :=
      fun kv hkv => hcur kv (List.mem_cons_of_mem _ hkv)
    simp only [any_horizontal_change_go, horizontal_change_spec, List.any_cons]
    cases hl : alookup previous key with
    | none => simp
    | some prev =>
      cases prev with
      | none => simp
      | some p =>
        by_cases hdiff : p.noofsamples ≠ c.noofsamples ∨
            p.horizontalspacing ≠ c.horizontalspacing ∨
            p.horizontalzeroindex ≠ c.horizontalzeroindex
        · simp only [if_pos hdiff]
          have hb : (decide (p.noofsamples ≠ c.noofsamples) ||
              decide (p.horizontalspacing ≠ c.horizontalspacing) ||
              decide (p.horizontalzeroindex ≠ c.horizontalzeroindex)) = true := by
            rcases hdiff with h1 | h2 | h3
            · simp [h1]
            · simp [h2]
            · simp [h3]
          simp [hb]
          exact Or.inl (by tauto)
        · push_neg at hdiff
          obtain ⟨h1, h2, h3⟩ := hdiff
          have : ¬(p.noofsamples ≠ c.noofsamples ∨
              p.horizontalspacing ≠ c.horizontalspacing ∨
              p.horizontalzeroindex ≠ c.horizontalzeroindex) := by
            push_neg
            exact ⟨h1, h2, h3⟩
          simp only [if_neg this, h1, h2, h3]
          rw [ih hrest]
          simp [horizontal_change_spec]

/-- Witness for `c7_horizontal_filter` at a concrete input. -/
theorem c7_horizontal_filter_witness :
    (∀ kv ∈ ([("ch1", some hdrSample)] : HeaderMap),
        (kv.2 : Option WaveformHeader).isSome = true) ∧
      any_horizontal_change [] [("ch1", some hdrSample)] =
        Except.ok (horizontal_change_spec [] [("ch1", some hdrSample)]) :=
  ⟨by decide, c7_horizontal_filter [] [("ch1", some hdrSample)] (by decide)⟩

/-- **C4.**  For every IQ header (`wfmtype` 6 or 7) the waveform
produced by `_read_waveform` carries meta info whose derived sample
rate is `L*B/1.9` for `Blackharris`, `L*B/3.77` for `Flattop2`,
`L*B/1.44` for `Hanning`, `L*B/1.3` for `Hamming`, `L*B/0.89` for
`Rectangle`, `L*B/2.23` for `Kaiserbessel`, and the span for every
other window-kind string (`L` the FFT length, `B` the resolution
bandwidth). -/
theorem c4_iq_rate_table (getWfm : String → List (List Nat))
    (header : WaveformHeader)
    (hty : header.wfmtype = 6 ∨ header.wfmtype = 7) :
    ∃ w, read_waveform getWfm header = Except.ok w ∧
      ∃ m, w.meta_info = some m ∧
        m.iq_sample_rate =
          if header.iq_windowType = "Blackharris" then
            header.iq_fftLength * header.iq_rbw / ((19 : Rat) / 10)
          else if header.iq_windowType = "Flattop2" then
            header.iq_fftLength * header.iq_rbw / ((377 : Rat) / 100)
          else if header.iq_windowType = "Hanning" then
            header.iq_fftLength * header.iq_rbw / ((144 : Rat) / 100)
          else if header.iq_windowType = "Hamming" then
            header.iq_fftLength * header.iq_rbw / ((13 : Rat) / 10)
          else if header.iq_windowType = "Rectangle" then
            header.iq_fftLength * header.iq_rbw / ((89 : Rat) / 100)
          else if header.iq_windowType = "Kaiserbessel" then
            header.iq_fftLength * header.iq_rbw / ((223 : Rat) / 100)
          else header.iq_span := by
  have h1 : ¬(0 < header.wfmtype ∧ header.wfmtype ≤ 3) := by
    rcases hty with h | h <;> omega
  simp only [read_waveform, if_neg h1, if_pos (Or.symm hty)]
  by_cases hw : iq_width_ok header.sourcewidth = true
  · rw [if_pos hw]
    refine ⟨_, rfl, _, rfl, ?_⟩
    simp [iq_sample_rate_of, beq_iff_eq]
  · rw [if_neg hw]
    refine ⟨_, rfl, _, rfl, ?_⟩
    simp [iq_sample_rate_of, beq_iff_eq]

/-- Witness for `c4_iq_rate_table` at the S4 header. -/
theorem c4_iq_rate_table_witness :
    (hdrIQ.wfmtype = 6 ∨ hdrIQ.wfmtype = 7) ∧
      ∃ w, read_waveform (fun _ => []) hdrIQ = Except.ok w ∧
        ∃ m, w.meta_info = some m ∧
          m.iq_sample_rate =
            if hdrIQ.iq_windowType = "Blackharris" then
              hdrIQ.iq_fftLength * hdrIQ.iq_rbw / ((19 : Rat) / 10)
            else if hdrIQ.iq_windowType = "Flattop2" then
              hdrIQ.iq_fftLength * hdrIQ.iq_rbw / ((377 : Rat) / 100)
            else if hdrIQ.iq_windowType = "Hanning" then
              hdrIQ.iq_fftLength * hdrIQ.iq_rbw / ((144 : Rat) / 100)
            else if hdrIQ.iq_windowType = "Hamming" then
              hdrIQ.iq_fftLength * hdrIQ.iq_rbw / ((13 : Rat) / 10)
            else if hdrIQ.iq_windowType = "Rectangle" then
              hdrIQ.iq_fftLength * hdrIQ.iq_rbw / ((89 : Rat) / 100)
            else if hdrIQ.iq_windowType = "Kaiserbessel" then
              hdrIQ.iq_fftLength * hdrIQ.iq_rbw / ((223 : Rat) / 100)
            else hdrIQ.iq_span :=
  ⟨Or.inl rfl, c4_iq_rate_table (fun _ => []) hdrIQ (Or.inl rfl)⟩

theorem lowerChar_bound :
    ∀ n : Nat, n < 91 → 65 ≤ n → 90 < (Char.ofNat (n + 32)).toNat := by
  decide

theorem lowerChar_idem (c : Char) : lowerChar (lowerChar c) = lowerChar c := by
  by_cases h : 65 ≤ c.toNat ∧ c.toNat ≤ 90
  · have hb : 90 < (Char.ofNat (c.toNat + 32)).toNat :=
      lowerChar_bound c.toNat (by omega) h.1
    have hno : ¬(65 ≤ (Char.ofNat (c.toNat + 32)).toNat ∧
        (Char.ofNat (c.toNat + 32)).toNat ≤ 90) := by omega
    have hc : lowerChar c = Char.ofNat (c.toNat + 32) := by
      rw [lowerChar, if_pos h]
    rw [hc, lowerChar, if_neg hno]
  · have hc : lowerChar c = c := by rw [lowerChar, if_neg h]
    rw [hc]
    exact hc

theorem lowerStr_idem (s : String) : lowerStr (lowerStr s) = lowerStr s := by
  have key : ∀ l : List Char, (l.map lowerChar).map lowerChar = l.map lowerChar := by
    intro l
    induction l with
    | nil => rfl
    | cons c cs ih => simp [ih, lowerChar_idem]
  simpa [lowerStr] using congrArg String.mk (key s.data)

/-- **C9.**  `get_data` is case-insensitive: for every string the result
equals the result at the lowercased string (the cache is keyed and
looked up by lowercase name); and a session constructed with an
explicit (non-empty) `activesymbols` list lowercases every supplied
symbol, so `source_names` holds only lowercase names. -/
theorem c9_case_insensitive (st : ConnState) (name : String)
    (available syms : List String) (hne : syms ≠ []) :
    get_data st name = get_data st (lowerStr name) ∧
      ∀ x ∈ init_active_symbols available syms, lowerStr x = x := by
  constructor
  · rw [get_data, get_data, lowerStr_idem]
  · intro x hx
    rw [init_active_symbols, if_neg (by simpa [List.isEmpty_iff] using hne)] at hx
    obtain ⟨y, _, rfl⟩ := List.mem_map.mp hx
    exact lowerStr_idem y

/-- Witness for `c9_case_insensitive`: `get("CH1") = get("ch1")` on the
fresh session built with `activesymbols = ["CH1"]`. -/
theorem c9_case_insensitive_witness :
    (["CH1"] ≠ ([] : List String)) ∧
      (get_data (initial_state [] ["CH1"] none false) "CH1" =
          get_data (initial_state [] ["CH1"] none false) (lowerStr "CH1") ∧
        ∀ x ∈ init_active_symbols [] ["CH1"], lowerStr x = x) :=
  ⟨by decide,
    c9_case_insensitive (initial_state [] ["CH1"] none false) "CH1" [] ["CH1"]
      (by decide)⟩

/-- **C10.**  `set_acq_filter` with a non-None filter swaps the filter
in and additionally sets `_lastacqseen` to the current `_acqcount`, so
any buffered-but-unseen acquisition counts as already seen, and a
subsequent NewData or NextAcq wait is not ready until an acquisition
strictly newer than the counter at the time of the call is published. -/
theorem c10_set_filter_marks_seen (st : ConnState)
    (f : HeaderMap → HeaderMap → Bool) :
    set_acq_filter st (some f) =
        Except.ok { st with dataFilter := some f, lastacqseen := st.acqcount } ∧
      next_acq_ready { st with dataFilter := some f, lastacqseen := st.acqcount } =
        false ∧
      ∀ st' : ConnState, st'.lastacqseen = st.acqcount →
        next_acq_ready st' = true → st.acqcount < st'.acqcount := by
  refine ⟨rfl, ?_, ?_⟩
  · simp [next_acq_ready]
  · intro st' hseen hready
    rw [next_acq_ready, Bool.and_eq_true, decide_eq_true_eq, decide_eq_true_eq]
      at hready
    omega

/-- Witness for `c10_set_filter_marks_seen`: a state with one buffered,
unseen acquisition (`acqcount = 1 > 0 = lastacqseen`) stops being ready
after `set_acq_filter`. -/
theorem c10_set_filter_marks_seen_witness :
    next_acq_ready
        { stBuffered with
          dataFilter := some any_acq
          lastacqseen := stBuffered.acqcount } = false ∧
      (∀ st' : ConnState, st'.lastacqseen = stBuffered.acqcount →
        next_acq_ready st' = true → stBuffered.acqcount < st'.acqcount) :=
  ⟨(c10_set_filter_marks_seen stBuffered any_acq).2.1,
    (c10_set_filter_marks_seen stBuffered any_acq).2.2⟩

/-- **C2.**  An acquisition-loop iteration whose valid-header list is
empty, or whose first valid header carries the last processed data id,
changes nothing observable: the per-source waveform cache, the stored
header map, the acquisition counter (and the last processed id) are
unchanged, and the event trace holds the per-symbol `GetHeader` calls
and the `finally` timestamp only — in particular no `GetWaveform`
payload call. -/
theorem c2_duplicate_suppression (srv : Server) (now : Rat) (st : ConnState)
    (hex : st.is_exiting = false)
    (hdup : (read_headers srv st.activesymbols).1 = [] ∨
      acq_id (read_headers srv st.activesymbols).1 = some st.prev_data_id) :
    (run_inner srv now st).1.datacache = st.datacache ∧
      (run_inner srv now st).1.headers = st.headers ∧
      (run_inner srv now st).1.acqcount = st.acqcount ∧
      (run_inner srv now st).1.prev_data_id = st.prev_data_id ∧
      (run_inner srv now st).2.2 =
        st.activesymbols.map Event.getHeaderE ++
          (if st.cachedataenabled then [Event.timestampE] else []) := by
  rcases hdup with hemp | hid
  · have hacq : acq_id (read_headers srv st.activesymbols).1 = none := by
      rw [hemp]
      rfl
    simp only [run_inner, hex, Bool.false_eq_true, if_false, hacq]
    by_cases hc : st.cachedataenabled = true <;>
      simp [stamp_time, hc]
  · simp only [run_inner, hex, Bool.false_eq_true, if_false, hid]
    by_cases hc : st.cachedataenabled = true <;>
      simp [stamp_time, hc]

/-- Witness for `c2_duplicate_suppression`: a server re-sending the
header with the already-processed data id 1. -/
theorem c2_duplicate_suppression_witness :
    ((stBuffered1.is_exiting = false) ∧
      ((read_headers srvDup stBuffered1.activesymbols).1 = [] ∨
        acq_id (read_headers srvDup stBuffered1.activesymbols).1 =
          some stBuffered1.prev_data_id)) ∧
      (run_inner srvDup 2 stBuffered1).1.datacache = stBuffered1.datacache ∧
        (run_inner srvDup 2 stBuffered1).1.headers = stBuffered1.headers ∧
        (run_inner srvDup 2 stBuffered1).1.acqcount = stBuffered1.acqcount ∧
        (run_inner srvDup 2 stBuffered1).1.prev_data_id = stBuffered1.prev_data_id ∧
        (run_inner srvDup 2 stBuffered1).2.2 =
          stBuffered1.activesymbols.map Event.getHeaderE ++
            (if stBuffered1.cachedataenabled then [Event.timestampE] else []) :=
  ⟨⟨by decide, Or.inr (by decide)⟩,
    c2_duplicate_suppression srvDup 2 stBuffered1 (by decide) (Or.inr (by decide))⟩

/-- **C5.**  When the current acceptance filter rejects (stored header
map, current header map) on a fresh (non-duplicate) acquisition, the
iteration replaces the stored header map with the current one and
nothing else observable: the waveform cache and the acquisition counter
are unchanged and the trace holds only the `GetHeader` calls and the
`finally` timestamp — no `GetWaveform` payload call. -/
theorem c5_filter_reject (srv : Server) (now : Rat) (st : ConnState) (cur : Int)
    (hex : st.is_exiting = false)
    (hid : acq_id (read_headers srv st.activesymbols).1 = some cur)
    (hne : st.prev_data_id ≠ cur)
    (hrej : filter_accepts st.dataFilter st.headers
        (read_headers srv st.activesymbols).2 = false) :
    (run_inner srv now st).1.headers = (read_headers srv st.activesymbols).2 ∧
      (run_inner srv now st).1.datacache = st.datacache ∧
      (run_inner srv now st).1.acqcount = st.acqcount ∧
      (run_inner srv now st).2.2 =
        st.activesymbols.map Event.getHeaderE ++
          (if st.cachedataenabled then [Event.timestampE] else []) := by
  by_cases hc : st.cachedataenabled = true <;>
    simp [run_inner, hex, hid, hne, hrej, stamp_time, hc]

/-- Witness for `c5_filter_reject`: `srvDup` offers data id 1, the
stored id is 0, and the installed filter rejects. -/
theorem c5_filter_reject_witness :
    (stRejecting.is_exiting = false ∧
      acq_id (read_headers srvDup stRejecting.activesymbols).1 = some 1 ∧
      stRejecting.prev_data_id ≠ 1 ∧
      filter_accepts stRejecting.dataFilter stRejecting.headers
        (read_headers srvDup stRejecting.activesymbols).2 = false) ∧
      (run_inner srvDup 2 stRejecting).1.headers =
          (read_headers srvDup stRejecting.activesymbols).2 ∧
        (run_inner srvDup 2 stRejecting).1.datacache = stRejecting.datacache ∧
        (run_inner srvDup 2 stRejecting).1.acqcount = stRejecting.acqcount ∧
        (run_inner srvDup 2 stRejecting).2.2 =
          stRejecting.activesymbols.map Event.getHeaderE ++
            (if stRejecting.cachedataenabled then [Event.timestampE] else []) :=
  ⟨⟨rfl, by decide, by decide, rfl⟩,
    c5_filter_reject srvDup 2 stRejecting 1 rfl (by decide) (by decide) rfl⟩

theorem groupBytesGo_length (width : Nat) (hw : width ≠ 0) :
    ∀ (fuel : Nat) (bytes : List Nat), bytes.length ≤ fuel →
      bytes.length % width = 0 →
      (groupBytesGo width fuel bytes).length = bytes.length / width := by
  intro fuel
  induction fuel with
  | zero =>
    intro bytes hb _
    have hbe : bytes = [] := by
      cases bytes with
      | nil => rfl
      | cons a l => simp at hb
    subst hbe
    simp [groupBytesGo]
  | succ n ih =>
    intro bytes hb hm
    cases bytes with
    | nil => simp [groupBytesGo]
    | cons a l =>
      rw [groupBytesGo]
      have hlpos : 0 < (a :: l).length := by simp
      obtain ⟨q, hq⟩ := Nat.dvd_of_mod_eq_zero hm
      have hwpos : 0 < width := Nat.pos_of_ne_zero hw
      have hqpos : 0 < q := by
        rcases Nat.eq_zero_or_pos q with h0 | h0
        · rw [h0, Nat.mul_zero] at hq
          omega
        · exact h0
      have hwle : width ≤ (a :: l).length := by
        rw [hq]
        calc width = width * 1 := by ring
        _ ≤ width * q := Nat.mul_le_mul_left width hqpos
      have hdl : ((a :: l).drop width).length = width * (q - 1) := by
        have h1 : ((a :: l).drop width).length = (a :: l).length - width := by simp
        rw [h1, hq]
        cases q with
        | zero => omega
        | succ k => rw [Nat.mul_succ, Nat.succ_sub_one, Nat.add_sub_cancel]
      have hdm : ((a :: l).drop width).length % width = 0 := by
        rw [hdl]
        simp [Nat.mul_mod_right]
      have hdn : ((a :: l).drop width).length ≤ n := by
        have h2 : ((a :: l).drop width).length = (a :: l).length - width := by simp
        omega
      rw [List.length_cons, ih ((a :: l).drop width) hdn hdm, hdl, hq]
      rw [Nat.mul_div_cancel_left _ hwpos, Nat.mul_div_cancel_left _ hwpos]
      omega
      simp

theorem groupBytes_length (width : Nat) (bytes : List Nat) (hw : width ≠ 0)
    (hm : bytes.length % width = 0) :
    (groupBytes width bytes).length = bytes.length / width := by
  rw [groupBytes, if_neg hw]
  exact groupBytesGo_length width hw bytes.length bytes le_rfl hm

theorem writeAt_length (buffer : List (Option (List Nat))) (s : Nat)
    (vals : List (List Nat)) (h : s + vals.length ≤ buffer.length) :
    (writeAt buffer s vals).length = buffer.length := by
  simp only [writeAt, List.length_append, List.length_take, List.length_drop,
    List.length_map]
  omega

theorem writeAt_drop (buffer : List (Option (List Nat))) (s : Nat)
    (vals : List (List Nat)) (j : Nat) (hj : s + vals.length ≤ j)
    (hs : s + vals.length ≤ buffer.length) :
    (writeAt buffer s vals).drop j = buffer.drop j := by
  have hsn : s ≤ buffer.length := le_trans (Nat.le_add_right s _) hs
  have hpre : (buffer.take s ++ vals.map some).length = s + vals.length := by
    simp [Nat.min_eq_left hsn]
  have hassoc : writeAt buffer s vals =
      (buffer.take s ++ vals.map some) ++ buffer.drop (s + vals.length) := by
    rw [writeAt, List.append_assoc]
  rw [hassoc]
  have hj' : j = (buffer.take s ++ vals.map some).length + (j - (s + vals.length)) := by
    rw [hpre]
    omega
  rw [hj', List.drop_append, List.drop_drop]
  congr 1
  rw [hpre]

theorem decodeLoop_underfill (width : Nat) (hw : width ≠ 0) :
    ∀ (chunks : List (List Nat)) (buffer : List (Option (List Nat))) (s : Nat),
      (∀ c ∈ chunks, c.length % width = 0) →
      s + (chunks.map (fun c => c.length / width)).sum ≤ buffer.length →
      (decodeLoop width chunks buffer s).2 = true ∧
        (decodeLoop width chunks buffer s).1.length = buffer.length ∧
        (decodeLoop width chunks buffer s).1.drop
            (s + (chunks.map (fun c => c.length / width)).sum) =
          buffer.drop (s + (chunks.map (fun c => c.length / width)).sum) := by
  intro chunks
  induction chunks with
  | nil =>
    intro buffer s _ _
    simp [decodeLoop]
  | cons c rest ih =>
    intro buffer s hmul hle
    have hcm : c.length % width = 0 := hmul c (by simp)
    have hfb : frombuffer width c = some (groupBytes width c) := by
      rw [frombuffer, if_pos ⟨hw, hcm⟩]
    have hk : (groupBytes width c).length = c.length / width :=
      groupBytes_length width c hw hcm
    have hsum : ((c :: rest).map (fun c => c.length / width)).sum =
        c.length / width + (rest.map (fun c => c.length / width)).sum := by
      simp
    rw [hsum] at hle
    have hfit : s + (groupBytes width c).length ≤ buffer.length := by
      rw [hk]
      omega
    have hsn : s ≤ buffer.length := by omega
    have hws : writeSlice buffer s (groupBytes width c) =
        some (writeAt buffer s (groupBytes width c)) := by
      rw [writeSlice]
      simp only [Nat.min_eq_left hsn, Nat.min_eq_left hfit]
      rw [if_pos (by omega)]
    have hblen : (writeAt buffer s (groupBytes width c)).length = buffer.length :=
      writeAt_length buffer s (groupBytes width c) hfit
    have hmul' : ∀ d ∈ rest, d.length % width = 0 := fun d hd => hmul d (by simp [hd])
    have hle' : (s + (groupBytes width c).length) +
        (rest.map (fun c => c.length / width)).sum ≤
        (writeAt buffer s (groupBytes width c)).length := by
      rw [hblen, hk]
      omega
    obtain ⟨hok, hlen, hdrop⟩ :=
      ih (writeAt buffer s (groupBytes width c))
        (s + (groupBytes width c).length) hmul' hle'
    have hstep : decodeLoop width (c :: rest) buffer s =
        decodeLoop width rest (writeAt buffer s (groupBytes width c))
          (s + (groupBytes width c).length) := by
      simp only [decodeLoop, hfb, hws]
    have hidx : s + ((c :: rest).map (fun c => c.length / width)).sum =
        (s + (groupBytes width c).length) +
          (rest.map (fun c => c.length / width)).sum := by
      rw [hsum, hk]
      omega
    refine ⟨?_, ?_, ?_⟩
    · rw [hstep, hok]
    · rw [hstep, hlen, hblen]
    · rw [hstep, hidx, hdrop]
      exact writeAt_drop buffer s (groupBytes width c) _ (by omega) hfit

/-- **C6, counterexample.**  The chunk stream totals 2 bytes against
`noofsamples * sourcewidth = 4`, yet the decoder returns the partially
filled buffer (two written cells, two never-written cells) instead of
discarding it, and the sequential payload reader still creates (here:
overwrites) the per-source cache entry with that partial waveform — the
source is not absent from the publish.  (No exception fires on an
under-full stream, so nothing is logged either.) -/
theorem c6_counterexample :
    ((srvShort.getWaveform "ch1").map List.length).sum = 2 ∧
      hdrShort.noofsamples * hdrShort.sourcewidth = 4 ∧
      read_waveform srvShort.getWaveform hdrShort =
        Except.ok ⟨"ch1", 1, [some [7], some [7], none, none], none, 5⟩ ∧
      alookup (read_waveforms_sequential srvShort [hdrShort]
            stBuffered1 []).1.datacache "ch1" =
        some ⟨"ch1", 1, [some [7], some [7], none, none], none, 5⟩ ∧
      (read_waveforms_sequential srvShort [hdrShort] stBuffered1 []).2.1 =
        [⟨"ch1", 1, [some [7], some [7], none, none], none, 5⟩] := by
  refine ⟨rfl, rfl, by rfl, by decide, by decide⟩

/-- **C6, amended.**  For a known waveform type whose width is a key of
the family's dtype table, an under-full chunk stream (every chunk a
width multiple, total samples short of `noofsamples`) raises nothing:
the decoder returns a waveform whose preallocated buffer has exactly
`noofsamples` cells with every cell beyond the delivered samples never
written, and the sequential payload reader still stores that partial
waveform in the per-source cache (creating or overwriting the entry)
and includes it in the published list. -/
theorem c6_decode_mismatch_publishes (srv : Server) (st : ConnState)
    (header : WaveformHeader)
    (hwk : (0 < header.wfmtype ∧ header.wfmtype ≤ 3 ∧
        v_width_ok header.sourcewidth = true) ∨
      ((header.wfmtype = 7 ∨ header.wfmtype = 6) ∧
        iq_width_ok header.sourcewidth = true) ∨
      ((header.wfmtype = 4 ∨ header.wfmtype = 5) ∧
        d_width_ok header.sourcewidth = true))
    (hw0 : header.sourcewidth ≠ 0)
    (hmul : ∀ c ∈ srv.getWaveform header.sourcename,
      c.length % header.sourcewidth = 0)
    (hunder : ((srv.getWaveform header.sourcename).map
        (fun c => c.length / header.sourcewidth)).sum < header.noofsamples)
    (hn : 0 < header.noofsamples)
    (hc : st.cachedataenabled = true) :
    ∃ w, read_waveform srv.getWaveform header = Except.ok w ∧
      w.y_buffer.length = header.noofsamples ∧
      w.y_buffer.drop (((srv.getWaveform header.sourcename).map
          (fun c => c.length / header.sourcewidth)).sum) =
        List.replicate (header.noofsamples -
          ((srv.getWaveform header.sourcename).map
            (fun c => c.length / header.sourcewidth)).sum) none ∧
      (read_waveforms_sequential srv [header] st []).1.datacache =
        ainsert st.datacache (lowerStr header.sourcename) w ∧
      (read_waveforms_sequential srv [header] st []).2.1 = [w] ∧
      (read_waveforms_sequential srv [header] st []).2.2.2 = true := by
  have hbody : ∃ w, read_waveform srv.getWaveform header = Except.ok w ∧
      w.y_buffer = (decodeLoop header.sourcewidth
        (srv.getWaveform header.sourcename)
        (List.replicate header.noofsamples none) 0).1 := by
    rcases hwk with ⟨h1, h2, hv⟩ | ⟨hty, hv⟩ | ⟨hty, hv⟩
    · simp only [read_waveform, if_pos (And.intro h1 h2), if_pos hv]
      exact ⟨_, rfl, rfl⟩
    · have hno : ¬(0 < header.wfmtype ∧ header.wfmtype ≤ 3) := by
        rcases hty with h | h <;> omega
      simp only [read_waveform, if_neg hno, if_pos hty, if_pos hv]
      exact ⟨_, rfl, rfl⟩
    · have hno : ¬(0 < header.wfmtype ∧ header.wfmtype ≤ 3) := by
        rcases hty with h | h <;> omega
      have hno2 : ¬(header.wfmtype = 7 ∨ header.wfmtype = 6) := by
        rcases hty with h | h <;> omega
      simp only [read_waveform, if_neg hno, if_neg hno2, if_pos hty, if_pos hv]
      exact ⟨_, rfl, rfl⟩
  obtain ⟨w, hok, hbuf⟩ := hbody
  obtain ⟨hloopok, hlooplen, hloopdrop⟩ :=
    decodeLoop_underfill header.sourcewidth hw0
      (srv.getWaveform header.sourcename)
      (List.replicate header.noofsamples none) 0 hmul
      (by simpa using Nat.le_of_lt hunder)
  have hwlen : w.y_buffer.length = header.noofsamples := by
    rw [hbuf, hlooplen, List.length_replicate]
  have hwdrop : w.y_buffer.drop (((srv.getWaveform header.sourcename).map
      (fun c => c.length / header.sourcewidth)).sum) =
      List.replicate (header.noofsamples -
        ((srv.getWaveform header.sourcename).map
          (fun c => c.length / header.sourcewidth)).sum) none := by
    rw [hbuf]
    have := hloopdrop
    simp only [Nat.zero_add] at this
    rw [this, List.drop_replicate]
  have hrl : 0 < w.record_length := by
    rw [ModelWaveform.record_length, hwlen]
    exact hn
  refine ⟨w, hok, hwlen, hwdrop, ?_, ?_, ?_⟩ <;>
    simp [read_waveforms_sequential, hok, hc, hrl]

/-- Witness for `c6_decode_mismatch_publishes` at the counterexample
input (2 bytes delivered against 4 expected). -/
theorem c6_decode_mismatch_publishes_witness :
    ∃ w, read_waveform srvShort.getWaveform hdrShort = Except.ok w ∧
      w.y_buffer.length = hdrShort.noofsamples ∧
      w.y_buffer.drop (((srvShort.getWaveform hdrShort.sourcename).map
          (fun c => c.length / hdrShort.sourcewidth)).sum) =
        List.replicate (hdrShort.noofsamples -
          ((srvShort.getWaveform hdrShort.sourcename).map
            (fun c => c.length / hdrShort.sourcewidth)).sum) none ∧
      (read_waveforms_sequential srvShort [hdrShort] stRejecting []).1.datacache =
        ainsert stRejecting.datacache (lowerStr hdrShort.sourcename) w ∧
      (read_waveforms_sequential srvShort [hdrShort] stRejecting []).2.1 = [w] ∧
      (read_waveforms_sequential srvShort [hdrShort] stRejecting []).2.2.2 = true :=
  c6_decode_mismatch_publishes srvShort stRejecting hdrShort
    (Or.inl ⟨by decide, by decide, by decide⟩) (by decide) (by decide)
    (by decide) (by decide) (by decide)

/-- **C8, counterexample.**  The claim says the acquisition counter is
incremented (and the snapshot timestamped) before the user callback is
invoked.  On this concrete accepted acquisition the trace shows the
callback strictly before the counter increment: the callback runs while
the counter still holds its pre-publish value. -/
theorem c8_counterexample :
    (run_inner srvNotify 3 stCallback).2.2 =
      [Event.getHeaderE "ch1", Event.getWaveformE "ch1", Event.timestampE,
        Event.dataArrivalE, Event.callbackE, Event.incrCounterE] ∧
      (run_inner srvNotify 3 stCallback).2.2.indexOf Event.callbackE <
        (run_inner srvNotify 3 stCallback).2.2.indexOf Event.incrCounterE ∧
      (run_inner srvNotify 3 stCallback).1.acqcount = stCallback.acqcount + 1 := by
  refine ⟨by decide, by decide, by decide⟩

/-- **C8, amended.**  On every accepted acquisition (fresh data id,
filter accepts, payloads decoded without exception, nonempty publish,
connected, not exiting, callback installed, caching on) the notify
phase runs in this order: the snapshot is timestamped first, then
`data_arrival` and the user callback are invoked, and the acquisition
counter is incremented only after the callback — the callback always
observes the pre-publish counter value. -/
theorem c8_notify_order (srv : Server) (now : Rat) (st : ConnState) (cur : Int)
    (st3 : ConnState) (wfs : List ModelWaveform) (ev1 : List Event)
    (hex : st.is_exiting = false)
    (hid : acq_id (read_headers srv st.activesymbols).1 = some cur)
    (hne : st.prev_data_id ≠ cur)
    (hacc : filter_accepts st.dataFilter st.headers
        (read_headers srv st.activesymbols).2 = true)
    (hrw : read_waveforms_sequential srv (read_headers srv st.activesymbols).1
        { st with
          prev_data_id := cur
          headers := (read_headers srv st.activesymbols).2 } [] =
      (st3, wfs, ev1, true))
    (hwne : wfs ≠ [])
    (hconn : st3.connected = true)
    (hex3 : st3.is_exiting = false)
    (hcb : st3.has_callback = true)
    (hcde : st3.cachedataenabled = true) :
    (run_inner srv now st).2.2 =
      st.activesymbols.map Event.getHeaderE ++ ev1 ++
        ([Event.timestampE] ++ [Event.dataArrivalE, Event.callbackE] ++
          [Event.incrCounterE]) ∧
      (run_inner srv now st).1.acqcount = st3.acqcount + 1 := by
  simp only [hex] at hrw
  constructor <;>
    simp [run_inner, hex, hid, hne, hacc, hrw, hwne, hconn, hex3, hcb, hcde,
      stamp_time]

/-- Witness for `c8_notify_order` at the `srvNotify` acquisition. -/
theorem c8_notify_order_witness :
    (run_inner srvNotify 3 stCallback).2.2 =
      stCallback.activesymbols.map Event.getHeaderE ++
        [Event.getWaveformE "ch1"] ++
        ([Event.timestampE] ++ [Event.dataArrivalE, Event.callbackE] ++
          [Event.incrCounterE]) ∧
      (run_inner srvNotify 3 stCallback).1.acqcount = stC3.acqcount + 1 :=
  c8_notify_order srvNotify 3 stCallback 1 stC3 [wTiny]
    [Event.getWaveformE "ch1"] rfl (by decide) (by decide) (by decide)
    (by rfl) (by decide) rfl rfl rfl rfl

theorem alookup_append {α : Type} (m l2 : List (String × α)) (k : String) :
    alookup (m ++ l2) k =
      match alookup m k with
      | some v => some v
      | none => alookup l2 k := by
  induction m with
  | nil => rfl
  | cons p rest ih =>
    obtain ⟨a, b⟩ := p
    by_cases hp : a = k
    · simp [alookup, hp]
    · simp only [List.cons_append, alookup]
      rw [if_neg hp, if_neg hp]
      exact ih

theorem alookup_eq_none_of_not_any {α : Type} (m : List (String × α))
    (k : String) (h : m.any (fun p => decide (p.1 = k)) = false) :
    alookup m k = none := by
  induction m with
  | nil => rfl
  | cons p rest ih =>
    obtain ⟨a, b⟩ := p
    simp only [List.any_cons, Bool.or_eq_false_iff] at h
    simp only [alookup]
    rw [if_neg (by simpa using h.1), ih h.2]

theorem alookup_map_replace {α : Type} (m : List (String × α)) (k k' : String)
    (v : α) (hne : k' ≠ k) :
    alookup (m.map (fun p => if p.1 = k then (k, v) else p)) k' =
      alookup m k' := by
  induction m with
  | nil => rfl
  | cons p rest ih =>
    obtain ⟨a, b⟩ := p
    simp only [List.map_cons]
    by_cases hp : a = k
    · subst hp
      rw [show (if ((a, b) : String × α).1 = a then (a, v) else (a, b)) = (a, v)
          from if_pos rfl]
      simp only [alookup]
      rw [if_neg (Ne.symm hne), if_neg (Ne.symm hne)]
      exact ih
    · rw [show (if ((a, b) : String × α).1 = k then (k, v) else (a, b)) = (a, b)
          from if_neg hp]
      simp only [alookup]
      by_cases hq : a = k'
      · rw [if_pos hq, if_pos hq]
      · rw [if_neg hq, if_neg hq]
        exact ih

theorem alookup_map_replace_self {α : Type} (m : List (String × α))
    (k : String) (v : α)
    (hany : m.any (fun p => decide (p.1 = k)) = true) :
    alookup (m.map (fun p => if p.1 = k then (k, v) else p)) k = some v := by
  induction m with
  | nil => simp at hany
  | cons p rest ih =>
    obtain ⟨a, b⟩ := p
    simp only [List.map_cons]
    by_cases hp : a = k
    · subst hp
      rw [show (if ((a, b) : String × α).1 = a then (a, v) else (a, b)) = (a, v)
          from if_pos rfl]
      simp [alookup]
    · rw [show (if ((a, b) : String × α).1 = k then (k, v) else (a, b)) = (a, b)
          from if_neg hp]
      simp only [alookup]
      rw [if_neg hp]
      apply ih
      simp only [List.any_cons, Bool.or_eq_true] at hany
      rcases hany with h1 | h2
      · exact absurd (by simpa using h1) hp
      · exact h2

theorem alookup_ainsert {α : Type} (m : List (String × α)) (k k' : String)
    (v : α) :
    alookup (ainsert m k v) k' = if k' = k then some v else alookup m k' := by
  rw [ainsert]
  by_cases hany : m.any (fun p => decide (p.1 = k)) = true
  · rw [if_pos hany]
    by_cases hk : k' = k
    · subst hk
      rw [if_pos rfl, alookup_map_replace_self m k' v hany]
    · rw [if_neg hk, alookup_map_replace m k k' v hk]
  · rw [if_neg hany]
    rw [alookup_append]
    by_cases hk : k' = k
    · subst hk
      rw [alookup_eq_none_of_not_any m k'
        (by simp only [Bool.not_eq_true] at hany; exact hany)]
      simp [alookup]
    · rw [if_neg hk]
      cases hl : alookup m k' with
      | some w => rfl
      | none =>
        simp [alookup, hk, Ne.symm hk]

theorem read_waveform_src (getWfm : String → List (List Nat))
    (header : WaveformHeader) (w : ModelWaveform)
    (hok : read_waveform getWfm header = Except.ok w) :
    w.src_dataid = header.dataid := by
  simp only [read_waveform] at hok
  split_ifs at hok <;> cases hok <;> rfl

theorem read_waveform_ok (getWfm : String → List (List Nat))
    (header : WaveformHeader) (ht1 : 0 < header.wfmtype)
    (ht2 : header.wfmtype ≤ 7) :
    ∃ w, read_waveform getWfm header = Except.ok w := by
  by_cases h1 : 0 < header.wfmtype ∧ header.wfmtype ≤ 3
  · simp only [read_waveform, if_pos h1]
    by_cases hv : v_width_ok header.sourcewidth = true
    · rw [if_pos hv]
      exact ⟨_, rfl⟩
    · rw [if_neg hv]
      exact ⟨_, rfl⟩
  · by_cases h2 : header.wfmtype = 7 ∨ header.wfmtype = 6
    · simp only [read_waveform, if_neg h1, if_pos h2]
      by_cases hv : iq_width_ok header.sourcewidth = true
      · rw [if_pos hv]
        exact ⟨_, rfl⟩
      · rw [if_neg hv]
        exact ⟨_, rfl⟩
    · have h3 : header.wfmtype = 4 ∨ header.wfmtype = 5 := by
        have h4 : 3 < header.wfmtype := by
          rcases Nat.lt_or_ge 3 header.wfmtype with h | h
          · exact h
          · exact absurd ⟨ht1, h⟩ h1
        have h7 : header.wfmtype ≠ 7 := fun hh => h2 (Or.inl hh)
        have h6 : header.wfmtype ≠ 6 := fun hh => h2 (Or.inr hh)
        omega
      simp only [read_waveform, if_neg h1, if_neg h2, if_pos h3]
      by_cases hv : d_width_ok header.sourcewidth = true
      · rw [if_pos hv]
        exact ⟨_, rfl⟩
      · rw [if_neg hv]
        exact ⟨_, rfl⟩

theorem read_waveforms_frame (srv : Server) :
    ∀ (headers : List WaveformHeader) (st : ConnState)
      (wfs0 : List ModelWaveform),
      (read_waveforms_sequential srv headers st wfs0).1.cachedataenabled =
          st.cachedataenabled ∧
        (read_waveforms_sequential srv headers st wfs0).1.activesymbols =
          st.activesymbols := by
  intro headers
  induction headers with
  | nil => intro st wfs0; exact ⟨rfl, rfl⟩
  | cons h rest ih =>
    intro st wfs0
    cases hok : read_waveform srv.getWaveform h with
    | error e => simp [read_waveforms_sequential, hok]
    | ok w =>
      by_cases hcc : st.cachedataenabled = true <;>
        simp [read_waveforms_sequential, hok, hcc, ih]

theorem read_waveforms_flag (srv : Server) :
    ∀ (headers : List WaveformHeader) (st : ConnState)
      (wfs0 : List ModelWaveform),
      (∀ h ∈ headers, 0 < h.wfmtype ∧ h.wfmtype ≤ 7) →
      (read_waveforms_sequential srv headers st wfs0).2.2.2 = true := by
  intro headers
  induction headers with
  | nil => intro st wfs0 _; rfl
  | cons h rest ih =>
    intro st wfs0 hall
    obtain ⟨ht1, ht2⟩ := hall h (by simp)
    obtain ⟨w, hok⟩ := read_waveform_ok srv.getWaveform h ht1 ht2
    have hrest : ∀ h' ∈ rest, 0 < h'.wfmtype ∧ h'.wfmtype ≤ 7 :=
      fun h' hh => hall h' (by simp [hh])
    by_cases hcc : st.cachedataenabled = true <;>
      simp [read_waveforms_sequential, hok, hcc, ih _ _ hrest]

theorem read_waveforms_isSome (srv : Server) :
    ∀ (headers : List WaveformHeader) (st : ConnState)
      (wfs0 : List ModelWaveform) (k : String),
      (alookup st.datacache k).isSome = true →
      (alookup (read_waveforms_sequential srv headers st wfs0).1.datacache
        k).isSome = true := by
  intro headers
  induction headers with
  | nil => intro st wfs0 k hk; exact hk
  | cons h rest ih =>
    intro st wfs0 k hk
    cases hok : read_waveform srv.getWaveform h with
    | error e => simpa [read_waveforms_sequential, hok] using hk
    | ok w =>
      by_cases hcc : st.cachedataenabled = true
      · simp only [read_waveforms_sequential, hok, hcc, if_pos]
        apply ih
        simp only [alookup_ainsert]
        by_cases hkk : k = lowerStr h.sourcename
        · simp [hkk]
        · simpa [hkk] using hk
      · simp only [read_waveforms_sequential, hok]
        simp only [hcc]
        exact ih _ _ k hk

theorem read_waveforms_entries (srv : Server) (d : Int) :
    ∀ (headers : List WaveformHeader) (st : ConnState)
      (wfs0 : List ModelWaveform),
      (∀ h ∈ headers, h.dataid = d) →
      ∀ k w, alookup (read_waveforms_sequential srv headers st
          wfs0).1.datacache k = some w →
        w.src_dataid = d ∨ alookup st.datacache k = some w := by
  intro headers
  induction headers with
  | nil => intro st wfs0 _ k w hw; exact Or.inr hw
  | cons h rest ih =>
    intro st wfs0 hall k w hw
    have hd : h.dataid = d := hall h (by simp)
    have hrest : ∀ h' ∈ rest, h'.dataid = d := fun h' hh => hall h' (by simp [hh])
    cases hok : read_waveform srv.getWaveform h with
    | error e =>
      rw [read_waveforms_sequential, hok] at hw
      exact Or.inr hw
    | ok w0 =>
      have hsrc : w0.src_dataid = d := by
        rw [read_waveform_src srv.getWaveform h w0 hok, hd]
      by_cases hcc : st.cachedataenabled = true
      · simp only [read_waveforms_sequential, hok, hcc, if_pos] at hw
        rcases ih _ _ hrest k w hw with hleft | hright
        · exact Or.inl hleft
        · rw [alookup_ainsert] at hright
          by_cases hkk : k = lowerStr h.sourcename
          · rw [if_pos hkk] at hright
            cases hright
            exact Or.inl hsrc
          · rw [if_neg hkk] at hright
            exact Or.inr hright
      · simp [read_waveforms_sequential, hok, hcc] at hw
        have hres := ih _ _ hrest k w hw
        exact hres

theorem read_waveforms_covers (srv : Server) (d : Int) :
    ∀ (headers : List WaveformHeader) (st : ConnState)
      (wfs0 : List ModelWaveform),
      (∀ h ∈ headers, h.dataid = d ∧ 0 < h.wfmtype ∧ h.wfmtype ≤ 7) →
      st.cachedataenabled = true →
      ∀ h ∈ headers,
        ∃ w, alookup (read_waveforms_sequential srv headers st
            wfs0).1.datacache (lowerStr h.sourcename) = some w ∧
          w.src_dataid = d := by
  intro headers
  induction headers with
  | nil => intro st wfs0 _ _ h hh; simp at hh
  | cons h rest ih =>
    intro st wfs0 hall hcc h' hh'
    obtain ⟨hd, ht1, ht2⟩ := hall h (by simp)
    obtain ⟨w0, hok⟩ := read_waveform_ok srv.getWaveform h ht1 ht2
    have hsrc : w0.src_dataid = d := by
      rw [read_waveform_src srv.getWaveform h w0 hok, hd]
    have hrest : ∀ h'' ∈ rest, h''.dataid = d ∧ 0 < h''.wfmtype ∧
        h''.wfmtype ≤ 7 := fun h'' hhh => hall h'' (by simp [hhh])
    rcases List.mem_cons.mp hh' with hhead | htail
    · subst hhead
      -- the head's entry is written now; it may be overwritten later by a
      -- rest entry, but every overwrite also carries data id d
      have hkey : (alookup ((read_waveforms_sequential srv rest
          { st with
            recordlength := w0.record_length
            datacache := ainsert st.datacache (lowerStr h'.sourcename) w0
            cachedataenabled := true }
          (if 0 < w0.record_length then wfs0 ++ [w0] else wfs0)).1.datacache)
          (lowerStr h'.sourcename)).isSome = true := by
        apply read_waveforms_isSome
        simp [alookup_ainsert]
      simp only [read_waveforms_sequential, hok, hcc, if_pos]
      obtain ⟨w1, hw1⟩ := Option.isSome_iff_exists.mp hkey
      rcases read_waveforms_entries srv d rest _ _
          (fun h'' hhh => (hrest h'' hhh).1)
          (lowerStr h'.sourcename) w1 hw1 with hleft | hright
      · exact ⟨w1, by simpa using hw1, hleft⟩
      · rw [alookup_ainsert, if_pos rfl] at hright
        cases hright
        exact ⟨w0, by simpa using hw1, hsrc⟩
    · by_cases hcc2 : True
      · simp only [read_waveforms_sequential, hok, hcc, if_pos]
        exact ih _ _ hrest (by simp [hcc]) h' htail
      · exact absurd trivial hcc2

theorem read_waveforms_new_keys (srv : Server) :
    ∀ (headers : List WaveformHeader) (st : ConnState)
      (wfs0 : List ModelWaveform) (k : String),
      (alookup (read_waveforms_sequential srv headers st
          wfs0).1.datacache k).isSome = true →
      (alookup st.datacache k).isSome = true ∨
        ∃ h ∈ headers, k = lowerStr h.sourcename := by
  intro headers
  induction headers with
  | nil => intro st wfs0 k hk; exact Or.inl hk
  | cons h rest ih =>
    intro st wfs0 k hk
    cases hok : read_waveform srv.getWaveform h with
    | error e =>
      rw [read_waveforms_sequential, hok] at hk
      exact Or.inl hk
    | ok w0 =>
      by_cases hcc : st.cachedataenabled = true
      · simp only [read_waveforms_sequential, hok, hcc, if_pos] at hk
        rcases ih _ _ k hk with hold | ⟨h'', hh'', hk''⟩
        · rw [alookup_ainsert] at hold
          by_cases hkk : k = lowerStr h.sourcename
          · exact Or.inr ⟨h, by simp, hkk⟩
          · rw [if_neg hkk] at hold
            exact Or.inl hold
        · exact Or.inr ⟨h'', by simp [hh''], hk''⟩
      · simp [read_waveforms_sequential, hok, hcc] at hk
        rcases ih _ _ k hk with hold | ⟨h'', hh'', hk''⟩
        · exact Or.inl hold
        · exact Or.inr ⟨h'', by simp [hh''], hk''⟩

theorem read_headers_good (srv : Server) (syms : List String) (d : Int)
    (hg : good_sweep srv syms d) :
    (∀ h ∈ (read_headers srv syms).1,
        h.dataid = d ∧ 0 < h.wfmtype ∧ h.wfmtype ≤ 7 ∧
          h.sourcename ∈ syms) ∧
      ∀ s ∈ syms, ∃ h, h ∈ (read_headers srv syms).1 ∧ h.sourcename = s := by
  constructor
  · intro h hmem
    rw [read_headers, read_headers_go_fst] at hmem
    simp only [List.nil_append, List.mem_filterMap, List.mem_map] at hmem
    obtain ⟨oh, ⟨s, hs, hset⟩, hf⟩ := hmem
    by_cases hv : is_header_value oh = true
    · rw [if_pos hv] at hf
      obtain ⟨h', hget, hname, _, hdid, hw1, hw2⟩ := hg s hs
      rw [hget] at hset
      rw [← hset] at hf
      cases hf
      exact ⟨hdid, hw1, hw2, hname ▸ hs⟩
    · rw [if_neg hv] at hf
      cases hf
  · intro s hs
    obtain ⟨h', hget, hname, hval, _, _, _⟩ := hg s hs
    refine ⟨h', ?_, hname⟩
    rw [read_headers, read_headers_go_fst]
    simp only [List.nil_append, List.mem_filterMap, List.mem_map]
    exact ⟨some h', ⟨s, hs, hget⟩, by rw [if_pos hval]⟩

/-- **C1, counterexample.**  With the acquisition-loop iteration taken
as atomic (the publish lock's effect), two accepted acquisitions in
which `ch2` drops out of the second one leave the cache mixing data
ids: an AnyAcq scope entered then observes `ch1` from acquisition 2
but `ch2` from acquisition 1 — not one single acquisition. -/
theorem c1_counterexample :
    any_acq_ready (run_loop [(srvSweep1, 1), (srvSweep2, 2)] stTwo) = true ∧
      (get_data (run_loop [(srvSweep1, 1), (srvSweep2, 2)] stTwo) "ch1").map
          ModelWaveform.src_dataid = some 2 ∧
      (get_data (run_loop [(srvSweep1, 1), (srvSweep2, 2)] stTwo) "ch2").map
          ModelWaveform.src_dataid = some 1 := by
  refine ⟨by decide, by decide, by decide⟩

theorem read_waveforms_nocache (srv : Server) :
    ∀ (headers : List WaveformHeader) (st : ConnState)
      (wfs0 : List ModelWaveform),
      st.cachedataenabled = false →
      (read_waveforms_sequential srv headers st wfs0).1.datacache =
        st.datacache := by
  intro headers
  induction headers with
  | nil => intro st wfs0 _; rfl
  | cons h rest ih =>
    intro st wfs0 hc
    cases hok : read_waveform srv.getWaveform h with
    | error e => simp [read_waveforms_sequential, hok]
    | ok w => simp [read_waveforms_sequential, hok, hc, ih]

theorem stamp_time_frame (x : ConnState) (t : Rat) :
    (stamp_time x t).1.datacache = x.datacache ∧
      (stamp_time x t).1.activesymbols = x.activesymbols := by
  by_cases hcx : x.cachedataenabled = true <;> simp [stamp_time, hcx]

/-- **C1, amended.**  Modelling each acquisition-loop iteration as
atomic (which is what the publish lock held across the whole
read-decode-publish sequence provides), one-acquisition consistency of
`get_data` holds only under the extra hypothesis that the access
window republishes every active symbol: if each active symbol yields a
valid, decodable header named after the symbol and all headers of the
window share one data id, then an iteration preserves the invariant
that all cached waveforms carry a single data id — and hence every
pair of `get_data` results inside a scope agrees on its acquisition
id.  Without full republication the invariant fails
(`c1_counterexample`): a source absent from the latest accepted
acquisition retains its waveform from an older one. -/
theorem c1_snapshot_uniform (srv : Server) (now : Rat) (st : ConnState)
    (d : Int) (hg : good_sweep srv st.activesymbols d)
    (hcu : cache_uniform st) (hck : cache_keys_active st) :
    cache_uniform (run_inner srv now st).1 ∧
      cache_keys_active (run_inner srv now st).1 ∧
      ∀ n1 n2 w1 w2, get_data (run_inner srv now st).1 n1 = some w1 →
        get_data (run_inner srv now st).1 n2 = some w2 →
        w1.src_dataid = w2.src_dataid := by
  suffices hmain : cache_uniform (run_inner srv now st).1 ∧
      cache_keys_active (run_inner srv now st).1 by
    refine ⟨hmain.1, hmain.2, ?_⟩
    intro n1 n2 w1 w2 h1 h2
    rw [get_data] at h1 h2
    by_cases hc : (run_inner srv now st).1.cachedataenabled = true
    · rw [if_pos hc] at h1 h2
      exact hmain.1 _ _ _ _ h1 h2
    · rw [if_neg hc] at h1
      cases h1
  have hframe : ∀ st' : ConnState, st'.datacache = st.datacache →
      st'.activesymbols = st.activesymbols →
      cache_uniform st' ∧ cache_keys_active st' := by
    intro st' h1 h2
    constructor
    · intro k1 k2 w1 w2 hw1 hw2
      rw [h1] at hw1 hw2
      exact hcu k1 k2 w1 w2 hw1 hw2
    · intro k hk
      rw [h1] at hk
      rw [h2]
      exact hck k hk
  by_cases hex : st.is_exiting = true
  · have h1 : (run_inner srv now st).1.datacache = st.datacache ∧
        (run_inner srv now st).1.activesymbols = st.activesymbols := by
      by_cases hc : st.cachedataenabled = true <;>
        simp [run_inner, hex, stamp_time, hc]
    exact hframe _ h1.1 h1.2
  · have hex' : st.is_exiting = false := by simpa using hex
    cases hacq : acq_id (read_headers srv st.activesymbols).1 with
    | none =>
      have h1 : (run_inner srv now st).1.datacache = st.datacache ∧
          (run_inner srv now st).1.activesymbols = st.activesymbols := by
        by_cases hc : st.cachedataenabled = true <;>
          simp [run_inner, hex', hacq, stamp_time, hc]
      exact hframe _ h1.1 h1.2
    | some cur =>
      by_cases hdup : st.prev_data_id = cur
      · have h1 : (run_inner srv now st).1.datacache = st.datacache ∧
            (run_inner srv now st).1.activesymbols = st.activesymbols := by
          by_cases hc : st.cachedataenabled = true <;>
            simp [run_inner, hex', hacq, hdup, stamp_time, hc]
        exact hframe _ h1.1 h1.2
      · by_cases hacc : filter_accepts st.dataFilter st.headers
            (read_headers srv st.activesymbols).2 = true
        · -- accepted acquisition
          obtain ⟨hprops, hcov⟩ := read_headers_good srv st.activesymbols d hg
          have hbounds : ∀ h ∈ (read_headers srv st.activesymbols).1,
              0 < h.wfmtype ∧ h.wfmtype ≤ 7 :=
            fun h hh => ⟨(hprops h hh).2.1, (hprops h hh).2.2.1⟩
          have hdids : ∀ h ∈ (read_headers srv st.activesymbols).1,
              h.dataid = d := fun h hh => (hprops h hh).1
          have hflag : (read_waveforms_sequential srv
              (read_headers srv st.activesymbols).1
              { st with
                prev_data_id := cur
                headers := (read_headers srv st.activesymbols).2
                is_exiting := false } []).2.2.2 = true :=
            read_waveforms_flag srv _ _ [] hbounds
          have hshape : (run_inner srv now st).1.datacache =
              (read_waveforms_sequential srv
                (read_headers srv st.activesymbols).1
                { st with
                  prev_data_id := cur
                  headers := (read_headers srv st.activesymbols).2
                  is_exiting := false } []).1.datacache ∧
              (run_inner srv now st).1.activesymbols =
                (read_waveforms_sequential srv
                  (read_headers srv st.activesymbols).1
                  { st with
                    prev_data_id := cur
                    headers := (read_headers srv st.activesymbols).2
                    is_exiting := false } []).1.activesymbols := by
            constructor <;>
              · simp only [run_inner, hex', Bool.false_eq_true, if_false, hacq,
                  hdup, hacc, if_pos, if_true, hflag]
                split_ifs <;>
                  simp [stamp_time] <;>
                  split_ifs <;>
                  simp
          have hfr := read_waveforms_frame srv
            (read_headers srv st.activesymbols).1
            { st with
              prev_data_id := cur
              headers := (read_headers srv st.activesymbols).2
              is_exiting := false } []
          by_cases hc : st.cachedataenabled = true
          · have hc2 : ({ st with
                prev_data_id := cur
                headers := (read_headers srv st.activesymbols).2
                is_exiting := false } : ConnState).cachedataenabled = true := hc
            have hall_d : ∀ k w,
                alookup (read_waveforms_sequential srv
                  (read_headers srv st.activesymbols).1
                  { st with
                    prev_data_id := cur
                    headers := (read_headers srv st.activesymbols).2
                    is_exiting := false } []).1.datacache k = some w →
                w.src_dataid = d := by
              intro k w hw
              rcases read_waveforms_entries srv d _ _ [] hdids k w hw with
                h | hold
              · exact h
              · have hks : (alookup st.datacache k).isSome = true := by
                  simp only [hold]
                  rfl
                obtain ⟨s, hsmem, hkeq⟩ := List.mem_map.mp (hck k hks)
                obtain ⟨h, hhmem, hhname⟩ := hcov s hsmem
                obtain ⟨w', hw', hw'd⟩ :=
                  read_waveforms_covers srv d _ _ []
                    (fun h' hh => ⟨hdids h' hh, hbounds h' hh⟩) hc2 h hhmem
                rw [hhname, hkeq] at hw'
                rw [hw] at hw'
                cases hw'
                exact hw'd
            constructor
            · intro k1 k2 w1 w2 hw1 hw2
              rw [hshape.1] at hw1 hw2
              rw [hall_d k1 w1 hw1, hall_d k2 w2 hw2]
            · intro k hk
              rw [hshape.1] at hk
              rw [hshape.2, hfr.2]
              rcases read_waveforms_new_keys srv _ _ [] k hk with
                hold | ⟨h, hhmem, hkeq⟩
              · exact hck k hold
              · subst hkeq
                exact List.mem_map.mpr
                  ⟨h.sourcename, (hprops h hhmem).2.2.2, rfl⟩
          · have hcf : ({ st with
                prev_data_id := cur
                headers := (read_headers srv st.activesymbols).2
                is_exiting := false } : ConnState).cachedataenabled = false := by
              simpa using hc
            have hnc := read_waveforms_nocache srv
              (read_headers srv st.activesymbols).1 _ [] hcf
            refine hframe _ ?_ ?_
            · rw [hshape.1, hnc]
            · rw [hshape.2, hfr.2]
        · -- rejected acquisition: only the stored header map changes
          have h1 : (run_inner srv now st).1.datacache = st.datacache ∧
              (run_inner srv now st).1.activesymbols = st.activesymbols := by
            by_cases hc : st.cachedataenabled = true <;>
              simp [run_inner, hex', hacq, hdup, hacc, stamp_time, hc]
          exact hframe _ h1.1 h1.2

/-- Witness for `c1_snapshot_uniform`: the fresh two-channel session and
the first sweep (both symbols republished with data id 1). -/
theorem c1_snapshot_uniform_witness :
    cache_uniform (run_inner srvSweep1 1 stTwo).1 ∧
      cache_keys_active (run_inner srvSweep1 1 stTwo).1 ∧
      ∀ n1 n2 w1 w2, get_data (run_inner srvSweep1 1 stTwo).1 n1 = some w1 →
        get_data (run_inner srvSweep1 1 stTwo).1 n2 = some w2 →
        w1.src_dataid = w2.src_dataid :=
  c1_snapshot_uniform srvSweep1 1 stTwo 1
    (by
      intro s hs
      have hsyms : stTwo.activesymbols = ["ch1", "ch2"] := by rfl
      rw [hsyms] at hs
      rcases List.mem_cons.mp hs with h1 | h2
      · subst h1
        exact ⟨hCh1Acq1, by decide, by decide, by decide, by decide,
          by decide, by decide⟩
      · rcases List.mem_cons.mp h2 with h3 | h4
        · subst h3
          exact ⟨hCh2Acq1, by decide, by decide, by decide, by decide,
            by decide, by decide⟩
        · simp at h4)
    (by
      intro k1 k2 w1 w2 hw1 hw2
      simp [stTwo, initial_state, alookup] at hw1)
    (by
      intro k hk
      simp [stTwo, initial_state, alookup] at hk)

/-- Witness for `c3_header_validity` at a one-symbol server. -/
theorem c3_header_validity_witness :
    is_header_value (some hdrSample) = true ∧
      (read_headers srvDup ["ch1"]).1 =
        (["ch1"].map srvDup.getHeader).filterMap
          (fun oh => if is_header_value oh then oh else none) ∧
      is_header_value (some hdrSample) = true :=
  ⟨((c3_header_validity srvDup ["ch1"]).1 (some hdrSample)).mpr
      ⟨hdrSample, rfl, by decide, by decide, by decide⟩,
    (c3_header_validity srvDup ["ch1"]).2.1,
    (c3_header_validity srvDup ["ch1"]).2.2 hdrSample (by decide)⟩
